import Mathlib

/-!
Verification development for the chatbot repository (RAG document pipeline).

Shallow embedding of the core of `src/backend/document_processor.py` and
`src/backend/rag_system.py`:

* Python strings are modelled as `List Char`; `str.strip`, `str.lower`,
  `str.rfind` (with slice-style index normalisation) and slicing are given
  executable models (`pyStrip`, `pyLower`, `pyRfind`, `pySlice`).
* Numeric similarity scores and distances are modelled as rationals; the
  Python `round(x, 3)` (banker tie-breaking) is `pyRound3`.
* Stateful code (ChromaDB collection, metadata registry JSON file) is
  modelled with an explicit `Store` threaded through the operations, with
  external providers (OpenAI embeddings and chat completions, ChromaDB calls)
  supplied as `Except`-valued oracle outcomes.
* The `_chunk_text` while-loop is modelled with explicit fuel so that the
  (real) possibility of non-termination for bad parameters is statable.
-/

namespace Chatbot

/-- Characters treated as whitespace by Python `str.strip` (ASCII range). -/
def pyIsSpace (c : Char) : Bool :=
  c == ' ' || c == '\t' || c == '\n' || c == '\r' || c == Char.ofNat 11 || c == Char.ofNat 12

/-- Model of Python `str.strip()`: drop whitespace from both ends. -/
def pyStrip (s : List Char) : List Char :=
  ((s.dropWhile pyIsSpace).reverse.dropWhile pyIsSpace).reverse

/-- Model of Python `str.lower()` (ASCII case folding suffices here). -/
def pyLower (s : List Char) : List Char :=
  s.map Char.toLower

/-- Normalise a Python slice index to an absolute position in `[0, n]`,
as Python does for `s[i:j]` and the bounds of `str.rfind`. -/
def pyNormIdx (n : Nat) (i : Int) : Nat :=
  if i < 0 then ((n : Int) + i).toNat else min i.toNat n

/-- Model of the Python slice `s[i:j]`. -/
def pySlice (s : List Char) (i j : Int) : List Char :=
  (s.take (pyNormIdx s.length j)).drop (pyNormIdx s.length i)

/-- Last index of a character satisfying `p` in a list, or `-1` when none
exists (the index convention of Python `str.rfind`). -/
def lastIdx (p : Char → Bool) : List Char → Int
  | [] => -1
  | c :: cs =>
    let r := lastIdx p cs
    if 0 ≤ r then r + 1 else if p c then 0 else -1

/-- Model of Python `s.rfind` restricted to `[i, j)`, generalised to a
character predicate: the largest absolute index of a matching character in
the normalised window, or `-1`. -/
def pyRfindP (p : Char → Bool) (s : List Char) (i j : Int) : Int :=
  let a := pyNormIdx s.length i
  let b := pyNormIdx s.length j
  let r := lastIdx p ((s.take b).drop a)
  if 0 ≤ r then (a : Int) + r else -1

/-- Model of Python `s.rfind(c, i, j)` for a one-character needle. -/
def pyRfind (s : List Char) (c : Char) (i j : Int) : Int :=
  pyRfindP (fun d => d == c) s i j

/-! ## The chunker (`DocumentProcessor._chunk_text`, document_processor.py 197-230) -/

/-- Window-end choice of one iteration of the `_chunk_text` while-loop
(document_processor.py lines 205-222), translated statement by statement:
`end = start + chunk_size`; when `end < len(text)` the per-mark `rfind`
results strictly past `start + chunk_size // 2` are folded with `max` into
`best_boundary` (offset by one), and otherwise the last space strictly past
that midpoint is used; when neither applies the raw `end` stands. -/
def windowEnd (text : List Char) (chunk_size : Nat) (start : Int) : Int :=
  let end0 : Int := start + chunk_size
  if end0 < (text.length : Int) then
    let mid : Int := start + ((chunk_size / 2 : Nat) : Int)
    let bb : Int := [('.' : Char), '!', '?'].foldl
      (fun b c =>
        let boundary_pos := pyRfind text c start end0
        if mid < boundary_pos then max b (boundary_pos + 1) else b) (-1)
    if 0 < bb then bb
    else
      let word_end := pyRfind text ' ' start end0
      if mid < word_end then word_end else end0
  else end0

/-- Chunk-emission step of the `_chunk_text` loop (lines 224-226):
`chunk = text[start:end].strip()`, appended only when non-empty and longer
than 50 characters. -/
def chunkEmit (text : List Char) (start e : Int) (acc : List (List Char)) :
    List (List Char) :=
  let c := pyStrip (pySlice text start e)
  if c ≠ [] ∧ 50 < c.length then acc ++ [c] else acc

/-- The `while start < len(text)` loop of `_chunk_text` (lines 204-228),
with explicit fuel: `none` means the fuel ran out before the loop finished
(the Python loop is not guaranteed to terminate, see the C4 analysis). -/
def chunkLoop (text : List Char) (chunk_size overlap : Nat) :
    Nat → Int → List (List Char) → Option (List (List Char))
  | 0, start, acc =>
    if start < (text.length : Int) then none else some acc
  | fuel + 1, start, acc =>
    if start < (text.length : Int) then
      let e := windowEnd text chunk_size start
      chunkLoop text chunk_size overlap fuel (e - overlap) (chunkEmit text start e acc)
    else some acc

/-- Model of `_chunk_text(text, chunk_size=1000, overlap=200)`
(document_processor.py lines 197-230). Fuel only matters on the loop path. -/
def chunk_text (fuel : Nat) (text : List Char) (chunk_size overlap : Nat) :
    Option (List (List Char)) :=
  if text.length ≤ chunk_size then
    some (if pyStrip text ≠ [] then [pyStrip text] else [])
  else chunkLoop text chunk_size overlap fuel 0 []

/-- The chunker as called by `process_document` (defaults 1000/200); fuel
`text.length + 1` suffices for these parameters (see `chunk_text_terminates`). -/
def chunkTextRun (text : List Char) : List (List Char) :=
  (chunk_text (text.length + 1) text 1000 200).getD []

/-- Modelled from the spec wording of the window rule (spec.md section 4.1 and
claim C3): the chunk ends just after the last sentence-terminating mark inside
the window when that mark lies strictly past the window midpoint; otherwise at
the last space in the window when it lies strictly past the midpoint; otherwise
at the raw `start + chunkSize` offset. Stated for every window, with no
special case for a window that reaches past the end of the text. -/
def specEnd (text : List Char) (chunk_size : Nat) (start : Int) : Int :=
  let mid : Int := start + ((chunk_size / 2 : Nat) : Int)
  let m := pyRfindP (fun c => c == '.' || (c == '!' || c == '?')) text start (start + chunk_size)
  if mid < m then m + 1
  else
    let w := pyRfind text ' ' start (start + chunk_size)
    if mid < w then w else start + chunk_size

/-- Modelled from the spec wording of claim C5 (weakest reasonable reading of
the emitted chunks, with their overlaps, covering the text with no gaps):
every character of the original text occurs in at least one emitted chunk. -/
def specCovered (text : List Char) (chunks : List (List Char)) : Prop :=
  ∀ c ∈ text, ∃ k ∈ chunks, c ∈ k

/-! ## Numeric model: Python round -/

/-- Round a rational to the nearest integer, ties to even (the rounding used
by Python `round`). -/
def roundHalfEven (q : ℚ) : ℤ :=
  if q - ⌊q⌋ < 1/2 then ⌊q⌋
  else if 1/2 < q - ⌊q⌋ then ⌊q⌋ + 1
  else if ⌊q⌋ % 2 = 0 then ⌊q⌋ else ⌊q⌋ + 1

/-- Model of Python `round(x, 3)` on the rational model of the scores. -/
def pyRound3 (q : ℚ) : ℚ :=
  (roundHalfEven (q * 1000) : ℚ) / 1000

/-! ## Retrieval (`DocumentProcessor.query_documents`, document_processor.py 295-332) -/

/-- One retrieved record of the ChromaDB query result (the parallel entries of
`results['documents'][0]`, `results['metadatas'][0]` and
`results['distances'][0]` flattened into one record). -/
structure ChromaHit where
  document : List Char
  filename : List Char
  doc_id : List Char
  chunk_id : List Char
  distance : ℚ
deriving DecidableEq, Repr

/-- A query-time source as assembled by `query_documents` (lines 319-325). -/
structure Source where
  content : List Char
  filename : List Char
  doc_id : List Char
  chunk_id : List Char
  similarity_score : ℚ
deriving DecidableEq, Repr

/-- The per-hit formatting of `query_documents` (lines 314-326):
`similarity_score = 1.0 - distance`, stored as `round(max(0.0, score), 3)`,
with content, filename, doc and chunk identifiers carried over. -/
def toSource (h : ChromaHit) : Source :=
  { content := h.document
    filename := h.filename
    doc_id := h.doc_id
    chunk_id := h.chunk_id
    similarity_score := pyRound3 (max 0 (1 - h.distance)) }

/-- Model of `query_documents` (lines 295-332). The OpenAI embedding call and
the ChromaDB query are external collaborators, supplied as oracle outcomes:
`embed` is the result of `_get_openai_embedding(query)` (which returns `[]`
for a blank query and raises on provider failure) and `hits` the result of
`collection.query`. The enclosing `try/except` returns `[]` on any failure. -/
def query_documents (embed : Except (List Char) (List ℚ))
    (hits : Except (List Char) (List ChromaHit)) : List Source :=
  match embed with
  | .error _ => []
  | .ok emb =>
    if emb = [] then []
    else
      match hits with
      | .error _ => []
      | .ok hs => if hs = [] then [] else hs.map toSource

/-! ## Answer synthesis (`RAGSystem.generate_answer`, rag_system.py 56-99) -/

/-- Outcome of the chat-completion provider call (already stripped of the
response envelope: the `.ok` payload is `response.choices[0].message.content`). -/
inductive LLMResult where
  | ok (text : List Char)
  | fail (msg : List Char)
deriving DecidableEq, Repr

/-- Result of `generate_answer`: the `answer` text of the returned dict, plus
an instrumentation bit recording whether the Language Generation Provider was
invoked (used to state the no-invocation parts of claims C2 and C8). -/
structure GAResult where
  answer : List Char
  invoked : Bool
deriving DecidableEq, Repr

/-- The apostrophe character (several reply strings of `rag_system.py`
contain it). -/
def apos : Char := Char.ofNat 39

/-- String to character list. -/
def chars (s : String) : List Char := s.data

/-- Fixed reply of `generate_answer` when retrieval returns no sources. -/
def noDocsMsg : List Char := chars "No documents found."

/-- Fixed decline reply when every similarity score is below the threshold. -/
def lowSimMsg : List Char :=
  chars "I do not know. The question doesn" ++ apos :: chars "t related to the available documents."

/-- Canonical decline reply substituted when the model output contains one of
the decline phrases. -/
def canonDeclineMsg : List Char :=
  chars "I do not know. Available documents don" ++
    apos :: chars "t contain information to answer your question."

/-- The fixed decline-phrase list of rag_system.py line 93. -/
def declinePhrases : List (List Char) :=
  [chars "i do not know",
   chars "i don" ++ apos :: chars "t know",
   chars "cannot answer",
   chars "not enough information"]

/-- Does `s` start with `pat`. -/
def leadMatch : List Char → List Char → Bool
  | [], _ => true
  | _ :: _, [] => false
  | a :: as, b :: bs => a == b && leadMatch as bs

/-- Model of Python substring membership `pat in s`. -/
def containsSub (pat : List Char) : List Char → Bool
  | [] => leadMatch pat []
  | c :: rest => leadMatch pat (c :: rest) || containsSub pat rest

/-- The `system_prompt` template of rag_system.py lines 25-39 with the
`{context}` and `{question}` slots substituted (`str.format`). -/
def promptTemplate (context question : List Char) : List Char :=
  chars "You are a helpful assistant that answers questions based ONLY on the provided context documents. \n\nInstructions:\n1. Use ONLY the information from the provided context to answer questions\n2. If the context doesn" ++
  apos :: chars "t contain enough information to answer the question, respond with \"I do not know\" \n3. Do not use your general knowledge - stick strictly to the provided context\n4. Be concise and accurate in your responses\n5. If you reference specific information, mention which document it came from\n\nContext Documents:\n" ++
  context ++ chars "\n\nQuestion: " ++ question ++ chars "\n\nAnswer:"

/-- Model of `generate_answer` (rag_system.py 56-99). The retrieval outcome
is the `sources` argument (the value of `query_documents`, which never
raises); `llm` is the chat-completion provider as an oracle from the prompt.
Every path returns a `GAResult`; the surrounding `try/except` of the source
has no reachable failing step left once the two provider calls are oracles. -/
def generate_answer (sources : List Source) (question : List Char)
    (llm : List Char → LLMResult) : GAResult :=
  if sources = [] then ⟨noDocsMsg, false⟩
  else if sources.all (fun s => s.similarity_score < 3/10) then ⟨lowSimMsg, false⟩
  else
    let context := List.intercalate (chars "\n\n")
      (sources.map (fun s =>
        chars "Document: " ++ s.filename ++ chars "\nContent: " ++ s.content))
    let prompt := promptTemplate context question
    match llm prompt with
    | .fail m => ⟨chars "Error connecting to OpenAI: " ++ m, true⟩
    | .ok text =>
      let answer := pyStrip text
      if declinePhrases.any (fun ph => containsSub ph (pyLower answer)) then
        ⟨canonDeclineMsg, true⟩
      else ⟨answer, true⟩

/-! ## Ingestion and deletion state model
(`process_document` lines 234-291, `delete_document` lines 346-368) -/

/-- A metadata registry record (the dict written at document_processor.py
lines 277-285; `upload_time` is wall-clock and not modelled). -/
structure DocRecord where
  id : List Char
  filename : List Char
  size : Nat
  status : List Char
  chunk_count : Nat
  embedding_model : List Char
deriving DecidableEq, Repr

/-- One ChromaDB entry written by `collection.add` (ids, embeddings,
documents and metadatas of lines 252-273, flattened per chunk). -/
structure ChunkEntry where
  chunk_id : List Char
  doc_id : List Char
  filename : List Char
  chunk_index : Nat
  text : List Char
  embedding : List ℚ
deriving DecidableEq, Repr

/-- The two persistent stores: the ChromaDB collection (Vector Index) and the
metadata registry file (documents_metadata.json), as in-memory values. -/
structure Store where
  index : List ChunkEntry
  registry : List (List Char × DocRecord)
deriving DecidableEq, Repr

/-- Registry lookup (Python `doc_id in metadata` / `metadata[doc_id]`). -/
def rlookup (m : List (List Char × DocRecord)) (k : List Char) : Option DocRecord :=
  (m.find? (fun p => p.1 == k)).map (fun p => p.2)

/-- Registry update `metadata[doc_id] = record` (dict assignment). -/
def registryInsert (m : List (List Char × DocRecord)) (k : List Char)
    (v : DocRecord) : List (List Char × DocRecord) :=
  (k, v) :: m.filter (fun p => !(p.1 == k))

/-- Registry removal `del metadata[doc_id]`. -/
def registryErase (m : List (List Char × DocRecord)) (k : List Char) :
    List (List Char × DocRecord) :=
  m.filter (fun p => !(p.1 == k))

/-- Oracle outcomes of the three external steps of one `process_document`
call: text extraction (`_extract_text_from_file`), the batch embedding call
(`_get_batch_openai_embeddings`) and the ChromaDB write (`collection.add`). -/
structure IngestOracle where
  extract : Except (List Char) (List Char)
  embedBatch : Except (List Char) (List (List ℚ))
  indexAdd : Except (List Char) Unit
deriving Repr

/-- The per-chunk entries built by the loop of lines 256-265:
`chunk_id = f"{doc_id}_{i}"` over `enumerate(zip(chunks, embeddings))`. -/
def mkEntries (doc_id filename : List Char) (chunks : List (List Char))
    (embeddings : List (List ℚ)) : List ChunkEntry :=
  (chunks.zip embeddings).enum.map (fun p =>
    { chunk_id := doc_id ++ '_' :: (Nat.repr p.1).data
      doc_id := doc_id
      filename := filename
      chunk_index := p.1
      text := p.2.1
      embedding := p.2.2 })

/-- Error prefix added by the `except` clause of `process_document`. -/
def ingestErr (e : List Char) : List Char :=
  chars "Error in processing document: " ++ e

/-- Model of `process_document` (document_processor.py 234-291). The fresh
`uuid` is the `doc_id` argument; the state is threaded explicitly and the
result pairs the raised-or-returned value with the post state. The metadata
registry is written only after the ChromaDB write succeeded (lines 268-286);
`_load_metadata`/`_save_metadata` never raise, so the registry write itself
cannot fail the call. -/
def process_document (o : IngestOracle) (doc_id filename : List Char)
    (file_size : Nat) (st : Store) : Except (List Char) (List Char) × Store :=
  match o.extract with
  | .error e => (.error (ingestErr e), st)
  | .ok text =>
    if pyStrip text = [] then (.error (ingestErr (chars "No text content found")), st)
    else
      let chunks := chunkTextRun text
      if chunks = [] then
        (.error (ingestErr (chars "No text chunks created from the document")), st)
      else
        match o.embedBatch with
        | .error e => (.error (ingestErr e), st)
        | .ok embeddings =>
          if embeddings.length ≠ chunks.length then
            (.error (ingestErr (chars "chunks (" ++ (Nat.repr chunks.length).data ++
              chars ") and embeddings (" ++ (Nat.repr embeddings.length).data ++
              chars ") not matched")), st)
          else
            match o.indexAdd with
            | .error e => (.error (ingestErr e), st)
            | .ok _ =>
              let entries := mkEntries doc_id filename chunks embeddings
              let record : DocRecord :=
                { id := doc_id
                  filename := filename
                  size := file_size
                  status := chars "processed"
                  chunk_count := chunks.length
                  embedding_model := chars "text-embedding-3-small" }
              (.ok doc_id,
               { index := st.index ++ entries
                 registry := registryInsert st.registry doc_id record })

/-- Model of `delete_document` (document_processor.py 346-368). `chroma` is
the joint outcome of the `collection.get` / `collection.delete` pair (the two
ChromaDB calls; a raise from either is caught and turns into `False` with no
state change, the external calls being atomic). On success the matching
chunks leave the index and then the registry entry is removed and saved. -/
def delete_document (chroma : Except (List Char) Unit) (doc_id : List Char)
    (st : Store) : Bool × Store :=
  match rlookup st.registry doc_id with
  | none => (false, st)
  | some _ =>
    match chroma with
    | .error _ => (false, st)
    | .ok _ =>
      (true,
       { index := st.index.filter (fun e => !(e.doc_id == doc_id))
         registry := registryErase st.registry doc_id })

/-! ## Concrete fixtures used by witnesses and counterexamples -/

/-- Three-character text with no sentence marks or spaces. -/
def aaaFix : List Char := ['a', 'a', 'a']

/-- Fifteen non-whitespace characters. -/
def z15 : List Char := List.replicate 15 'z'

/-- A 120-character text: 110 letters, a period at position 110, then 9
letters. Used to exercise the final-window behaviour of the chunker. -/
def text120 : List Char := List.replicate 110 'a' ++ '.' :: List.replicate 9 'b'

/-- A retrieved source whose similarity score is below the 0.3 threshold. -/
def srcLow : Source := ⟨chars "c", chars "f.txt", chars "d", chars "d_0", 1/10⟩

/-- A retrieved source whose similarity score is above the 0.3 threshold. -/
def srcHigh : Source := ⟨chars "c", chars "f.txt", chars "d", chars "d_0", 1/2⟩

/-- A generation provider that always answers. -/
def llmConst : List Char → LLMResult := fun _ => .ok (chars "Paris")

/-- Ingestion oracle whose embedding provider returns zero vectors for the
one chunk of `"hello world"`: the chunk/embedding count mismatch scenario. -/
def orcMismatch : IngestOracle := ⟨.ok (chars "hello world"), .ok [], .ok ()⟩

/-- Ingestion oracle where every external step succeeds. -/
def orcGood : IngestOracle := ⟨.ok (chars "hello world"), .ok [[1]], .ok ()⟩

/-- A one-hit ChromaDB query result at cosine distance 1/2. -/
def hitHalf : ChromaHit := ⟨chars "t", chars "f.txt", chars "d", chars "d_0", 1/2⟩

/-- A store holding one document record and one chunk for identifier `d`. -/
def storeOne : Store :=
  { index := [⟨chars "d_0", chars "d", chars "f.txt", 0, chars "t", [1]⟩]
    registry := [(chars "d", ⟨chars "d", chars "f.txt", 1, chars "processed", 1,
      chars "text-embedding-3-small"⟩)] }

/-! ## Helper lemmas -/

theorem neg_one_le_lastIdx (p : Char → Bool) (s : List Char) : -1 ≤ lastIdx p s := by
  induction s with
  | nil => simp [lastIdx]
  | cons c cs ih =>
    simp only [lastIdx]
    split_ifs <;> omega

theorem lastIdx_or (p q : Char → Bool) (s : List Char) :
    lastIdx (fun c => p c || q c) s = max (lastIdx p s) (lastIdx q s) := by
  induction s with
  | nil => simp [lastIdx]
  | cons c cs ih =>
    have hp := neg_one_le_lastIdx p cs
    have hq := neg_one_le_lastIdx q cs
    simp only [lastIdx, ih, max_def]
    split_ifs <;> simp_all <;> omega

theorem neg_one_le_pyRfindP (p : Char → Bool) (s : List Char) (i j : Int) :
    -1 ≤ pyRfindP p s i j := by
  have := neg_one_le_lastIdx p ((s.take (pyNormIdx s.length j)).drop (pyNormIdx s.length i))
  simp only [pyRfindP]
  split_ifs <;> omega

theorem pyRfindP_or (p q : Char → Bool) (s : List Char) (i j : Int) :
    pyRfindP (fun c => p c || q c) s i j = max (pyRfindP p s i j) (pyRfindP q s i j) := by
  have hp := neg_one_le_lastIdx p ((s.take (pyNormIdx s.length j)).drop (pyNormIdx s.length i))
  have hq := neg_one_le_lastIdx q ((s.take (pyNormIdx s.length j)).drop (pyNormIdx s.length i))
  simp only [pyRfindP, lastIdx_or, max_def]
  split_ifs <;> omega

theorem dropWhile_idem (p : Char → Bool) (l : List Char) :
    (l.dropWhile p).dropWhile p = l.dropWhile p := by
  induction l with
  | nil => rfl
  | cons a l ih =>
    cases hp : p a <;> simp [List.dropWhile, hp, ih]

theorem dropWhile_head_not (p : Char → Bool) (l : List Char) {x : Char}
    {xs : List Char} (h : l.dropWhile p = x :: xs) : p x = false := by
  induction l with
  | nil => simp [List.dropWhile] at h
  | cons a l ih =>
    by_cases hp : p a = true
    · exact ih (by simpa [List.dropWhile, hp] using h)
    · simp only [List.dropWhile, hp, if_false] at h
      cases h
      simpa using hp

theorem dropWhile_getLast? (p : Char → Bool) (l : List Char)
    (h : l.dropWhile p ≠ []) : (l.dropWhile p).getLast? = l.getLast? := by
  induction l with
  | nil => simp [List.dropWhile] at h
  | cons a l ih =>
    by_cases hp : p a = true
    · have hdw : (a :: l).dropWhile p = l.dropWhile p := by
        simp [List.dropWhile, hp]
      rw [hdw] at h ⊢
      rw [ih h]
      cases l with
      | nil => simp [List.dropWhile] at h
      | cons b bs => exact (List.getLast?_cons_cons).symm
    · simp [List.dropWhile, hp]

theorem dropWhile_eq_self_of_head (p : Char → Bool) (l : List Char)
    (h : ∀ x ∈ l.head?, p x = false) : l.dropWhile p = l := by
  cases l with
  | nil => rfl
  | cons a l => simp [List.dropWhile, h a (by simp)]

theorem pyStrip_dropWhile (s : List Char) :
    (pyStrip s).dropWhile pyIsSpace = pyStrip s := by
  unfold pyStrip
  set u := s.dropWhile pyIsSpace with hu
  set w := u.reverse.dropWhile pyIsSpace with hw
  apply dropWhile_eq_self_of_head
  intro y hy
  have hwne : w ≠ [] := by
    intro h0
    rw [h0] at hy
    simp at hy
  have hune : u ≠ [] := by
    intro h0
    apply hwne
    rw [hw, h0]
    rfl
  have hchain : w.reverse.head? = u.head? := by
    rw [List.head?_reverse, hw, dropWhile_getLast? _ _ hwne, List.getLast?_reverse]
  cases hu2 : u with
  | nil => exact absurd hu2 hune
  | cons z zs =>
    have hz : pyIsSpace z = false := dropWhile_head_not pyIsSpace s (hu ▸ hu2)
    have hy2 : z = y := by
      rw [hchain, hu2] at hy
      simpa using hy
    exact hy2 ▸ hz

theorem pyStrip_idem (s : List Char) : pyStrip (pyStrip s) = pyStrip s := by
  show (((pyStrip s).dropWhile pyIsSpace).reverse.dropWhile pyIsSpace).reverse = pyStrip s
  rw [pyStrip_dropWhile]
  unfold pyStrip
  rw [List.reverse_reverse, dropWhile_idem]

theorem roundHalfEven_mono {x y : ℚ} (h : x ≤ y) :
    roundHalfEven x ≤ roundHalfEven y := by
  have hfx : (⌊x⌋ : ℚ) ≤ x := Int.floor_le x
  have hfx1 : x < ⌊x⌋ + 1 := Int.lt_floor_add_one x
  have hfy : (⌊y⌋ : ℚ) ≤ y := Int.floor_le y
  have hfy1 : y < ⌊y⌋ + 1 := Int.lt_floor_add_one y
  have hff : ⌊x⌋ ≤ ⌊y⌋ := Int.floor_mono h
  unfold roundHalfEven
  rcases lt_or_eq_of_le hff with hlt | heq
  · split_ifs <;> omega
  · rw [← heq]
    have hcast : ((⌊x⌋ : ℚ)) = ((⌊y⌋ : ℚ)) := by exact_mod_cast heq
    have hr : x - ⌊x⌋ ≤ y - ⌊x⌋ := by linarith
    split_ifs <;> first
      | omega
      | (exfalso; rw [← hcast] at *; linarith)

theorem pyRound3_mono {x y : ℚ} (h : x ≤ y) : pyRound3 x ≤ pyRound3 y := by
  unfold pyRound3
  have h1 : x * 1000 ≤ y * 1000 := by linarith
  have h2 : roundHalfEven (x * 1000) ≤ roundHalfEven (y * 1000) :=
    roundHalfEven_mono h1
  have h3 : ((roundHalfEven (x * 1000) : ℚ)) ≤ ((roundHalfEven (y * 1000) : ℚ)) := by
    exact_mod_cast h2
  linarith

theorem srcLow_lt : srcLow.similarity_score < 3/10 := by
  norm_num [srcLow]

theorem srcHigh_not_lt : ¬ srcHigh.similarity_score < 3/10 := by
  norm_num [srcHigh]

/-! ## Claim theorems -/

/-- C9: for every input text whose length is at or below `chunk_size`, the
chunker returns exactly one chunk equal to the whitespace-trimmed input, or
the empty sequence when trimming the input yields the empty string
(document_processor.py lines 198-199). -/
theorem chunk_text_short (fuel : Nat) (text : List Char) (chunk_size overlap : Nat)
    (h : text.length ≤ chunk_size) :
    (pyStrip text ≠ [] → chunk_text fuel text chunk_size overlap = some [pyStrip text])
    ∧ (pyStrip text = [] → chunk_text fuel text chunk_size overlap = some []) := by
  constructor <;> intro hs <;> simp [chunk_text, h, hs]

/-- Witness for C9 at a concrete short input. -/
theorem chunk_text_short_w :
    chunk_text 0 (chars "  hi  ") 1000 200 = some [chars "hi"] :=
  (chunk_text_short 0 (chars "  hi  ") 1000 200 (by decide)).1 (by decide)

/-- C2: `generate_answer` with an empty retrieved-sources sequence returns
the fixed no-documents text without invoking the generation provider, and
with every similarity score strictly below 3/10 it returns the fixed decline
text, also without invoking the provider (rag_system.py lines 59-64). -/
theorem generate_answer_gates (sources : List Source) (question : List Char)
    (llm : List Char → LLMResult)
    (hne : sources ≠ []) (hlow : ∀ s ∈ sources, s.similarity_score < 3/10) :
    generate_answer [] question llm = ⟨noDocsMsg, false⟩
    ∧ generate_answer sources question llm = ⟨lowSimMsg, false⟩ := by
  have hb : sources.all (fun s => decide (s.similarity_score < 3/10)) = true :=
    List.all_eq_true.2 (fun s hs => decide_eq_true (hlow s hs))
  exact ⟨by simp [generate_answer], by simp [generate_answer, hne, hb]⟩

/-- Witness for C2 at a concrete below-threshold source list. -/
theorem generate_answer_gates_w :
    generate_answer [] (chars "q") llmConst = ⟨noDocsMsg, false⟩
    ∧ generate_answer [srcLow] (chars "q") llmConst = ⟨lowSimMsg, false⟩ :=
  generate_answer_gates [srcLow] (chars "q") llmConst (by simp)
    (fun s hs => List.mem_singleton.1 hs ▸ srcLow_lt)

/-- C8: the query path never surfaces a hard error. `query_documents`
degrades to `[]` when the embedding call or the ChromaDB query fails
(document_processor.py lines 330-332), and `generate_answer` turns every
outcome into answer text: empty retrieval gives the fixed no-documents
reply and a failing generation call gives a descriptive error string as the
answer instead of a raised error (rag_system.py lines 59-60 and 86-88). -/
theorem generate_answer_degrades (sources : List Source)
    (question m e1 e2 : List Char) (emb : List ℚ)
    (hits : Except (List Char) (List ChromaHit)) (llm : List Char → LLMResult)
    (hne : sources ≠ []) (hhigh : ¬ ∀ s ∈ sources, s.similarity_score < 3/10) :
    query_documents (.error e1) hits = []
    ∧ query_documents (.ok emb) (.error e2) = []
    ∧ generate_answer [] question llm = ⟨noDocsMsg, false⟩
    ∧ generate_answer sources question (fun _ => .fail m) =
        ⟨chars "Error connecting to OpenAI: " ++ m, true⟩ := by
  have hb : sources.all (fun s => decide (s.similarity_score < 3/10)) = false := by
    rcases Bool.eq_false_or_eq_true (sources.all (fun s => decide (s.similarity_score < 3/10)))
      with hf | ht
    · exact absurd (fun s hs => of_decide_eq_true (List.all_eq_true.1 hf s hs)) hhigh
    · exact ht
  refine ⟨rfl, ?_, by simp [generate_answer], ?_⟩
  · by_cases hemb : emb = [] <;> simp [query_documents, hemb]
  · simp [generate_answer, hne, hb]

/-- Witness for C8 at a concrete above-threshold source and failing provider. -/
theorem generate_answer_degrades_w :
    query_documents (.error (chars "down")) (.ok [hitHalf]) = []
    ∧ query_documents (.ok [(1 : ℚ)]) (.error (chars "down")) = []
    ∧ generate_answer [] (chars "q") llmConst = ⟨noDocsMsg, false⟩
    ∧ generate_answer [srcHigh] (chars "q") (fun _ => .fail (chars "boom")) =
        ⟨chars "Error connecting to OpenAI: " ++ chars "boom", true⟩ :=
  generate_answer_degrades [srcHigh] (chars "q") (chars "boom") (chars "down")
    (chars "down") [(1 : ℚ)] (.ok [hitHalf]) llmConst (by simp)
    (fun hall => srcHigh_not_lt (hall srcHigh (List.mem_singleton_self srcHigh)))

/-- C7: each retrieved source carries similarity
`round(max(0, 1 - distance), 3)` together with the originating content,
filename, document and chunk identifiers, and when the Vector Index returns
hits in ascending-distance order (its nearest-first contract) the returned
sources are in descending-similarity order
(document_processor.py lines 302-328). -/
theorem query_documents_sources (emb : List ℚ) (hits : List ChromaHit)
    (hemb : emb ≠ [])
    (hsorted : hits.Pairwise (fun a b => a.distance ≤ b.distance)) :
    query_documents (.ok emb) (.ok hits) = hits.map toSource
    ∧ (∀ h ∈ hits, (toSource h).similarity_score = pyRound3 (max 0 (1 - h.distance))
        ∧ (toSource h).filename = h.filename
        ∧ (toSource h).doc_id = h.doc_id
        ∧ (toSource h).chunk_id = h.chunk_id
        ∧ (toSource h).content = h.document)
    ∧ (query_documents (.ok emb) (.ok hits)).Pairwise
        (fun a b => b.similarity_score ≤ a.similarity_score) := by
  have h1 : query_documents (.ok emb) (.ok hits) = hits.map toSource := by
    by_cases hh : hits = [] <;> simp [query_documents, hemb, hh]
  refine ⟨h1, fun h _ => ⟨rfl, rfl, rfl, rfl, rfl⟩, ?_⟩
  rw [h1, List.pairwise_map]
  refine hsorted.imp ?_
  intro a b hab
  exact pyRound3_mono (max_le_max (le_refl 0) (by linarith))

/-- Witness for C7 at a concrete one-hit result. -/
theorem query_documents_sources_w :
    query_documents (.ok [(1 : ℚ)]) (.ok [hitHalf]) = [hitHalf].map toSource
    ∧ (toSource hitHalf).similarity_score = pyRound3 (max 0 (1 - hitHalf.distance)) :=
  ⟨(query_documents_sources [(1 : ℚ)] [hitHalf] (by simp) (by simp)).1,
   ((query_documents_sources [(1 : ℚ)] [hitHalf] (by simp) (by simp)).2.1 hitHalf
     (by simp)).1⟩

/-- C1: when `process_document` fails at any step up to and including the
Vector Index write — text extraction, empty text, no chunks, a failing
embedding call, the chunk/embedding count mismatch, or a failing
`collection.add` — the call raises and the Metadata Registry is unchanged,
so no registry entry is created for the new document identifier
(document_processor.py lines 234-291: the registry write at lines 276-286
is the commit point, reached only after every earlier step succeeded). -/
theorem process_document_failure_keeps_registry (o : IngestOracle)
    (doc_id filename : List Char) (file_size : Nat) (st : Store)
    (h : ∃ e, (process_document o doc_id filename file_size st).1 = .error e) :
    (process_document o doc_id filename file_size st).2.registry = st.registry
    ∧ (rlookup st.registry doc_id = none →
        rlookup (process_document o doc_id filename file_size st).2.registry doc_id = none) := by
  obtain ⟨e, he⟩ := h
  have hreg : (process_document o doc_id filename file_size st).2.registry = st.registry := by
    rcases o with ⟨ext, embB, add⟩
    cases ext with
    | error e0 => rfl
    | ok text =>
      by_cases h1 : pyStrip text = []
      · simp [process_document, h1]
      · by_cases h2 : chunkTextRun text = []
        · simp [process_document, h1, h2]
        · cases embB with
          | error e1 => simp [process_document, h1, h2]
          | ok embs =>
            by_cases h3 : embs.length = (chunkTextRun text).length
            · cases add with
              | error e2 => simp [process_document, h1, h2, h3]
              | ok u =>
                exfalso
                simp [process_document, h1, h2, h3] at he
            · simp [process_document, h1, h2, h3]
  exact ⟨hreg, fun hn => hreg ▸ hn⟩

/-- Witness for C1: a provider returning zero vectors for one chunk makes
the call fail and leaves the empty registry empty. -/
theorem process_document_failure_keeps_registry_w :
    (process_document orcMismatch (chars "id1") (chars "a.txt") 11
      ⟨[], []⟩).2.registry = ([] : List (List Char × DocRecord)) :=
  (process_document_failure_keeps_registry orcMismatch (chars "id1")
    (chars "a.txt") 11 ⟨[], []⟩ ⟨_, rfl⟩).1

/-- C6: `delete_document` returns `False` when the identifier is absent from
the Metadata Registry (line 349-350); a successful `process_document` leaves
a registry entry for the new identifier (lines 276-286); and a successful
delete of a present identifier removes every Vector Index chunk with that
document identifier and the registry record, restoring the dual-store
invariant post-delete (lines 352-364). -/
theorem ingest_delete_consistency (o : IngestOracle) (d f : List Char)
    (n : Nat) (st st2 : Store) (x : Except (List Char) Unit)
    (hok : ∃ r, (process_document o d f n st).1 = .ok r) :
    (rlookup st2.registry d = none → (delete_document x d st2).1 = false)
    ∧ rlookup (process_document o d f n st).2.registry d ≠ none
    ∧ (rlookup st2.registry d ≠ none →
        (delete_document (.ok ()) d st2).1 = true
        ∧ (∀ ce ∈ (delete_document (.ok ()) d st2).2.index, ¬ ce.doc_id = d)
        ∧ rlookup (delete_document (.ok ()) d st2).2.registry d = none) := by
  obtain ⟨r, hr⟩ := hok
  refine ⟨?_, ?_, ?_⟩
  · intro hn
    simp [delete_document, hn]
  · rcases o with ⟨ext, embB, add⟩
    cases ext with
    | error e0 => simp [process_document] at hr
    | ok text =>
      by_cases h1 : pyStrip text = []
      · simp [process_document, h1] at hr
      · by_cases h2 : chunkTextRun text = []
        · simp [process_document, h1, h2] at hr
        · cases embB with
          | error e1 => simp [process_document, h1, h2] at hr
          | ok embs =>
            by_cases h3 : embs.length = (chunkTextRun text).length
            · cases add with
              | error e2 => simp [process_document, h1, h2, h3] at hr
              | ok u =>
                simp [process_document, h1, h2, h3, rlookup, registryInsert]
            · simp [process_document, h1, h2, h3] at hr
  · intro hp
    cases hl : rlookup st2.registry d with
    | none => exact absurd hl hp
    | some rec2 =>
      refine ⟨by simp [delete_document, hl], ?_, ?_⟩
      · intro ce hce
        simp only [delete_document, hl] at hce
        have := (List.mem_filter.1 hce).2
        intro hd
        simp [hd] at this
      · simp only [delete_document, hl]
        apply Option.map_eq_none.2
        apply List.find?_eq_none.2
        intro p hp2
        have := (List.mem_filter.1 hp2).2
        simpa using this

/-- Witness for C6: ingest `"hello world"` into an empty store, then delete
the returned identifier; the post-delete store holds no chunk and no record. -/
theorem ingest_delete_consistency_w :
    (delete_document (.ok ())
      (chars "id1")
      (process_document orcGood (chars "id1") (chars "a.txt") 11 ⟨[], []⟩).2).1 = true
    ∧ rlookup (delete_document (.ok ()) (chars "id1")
        (process_document orcGood (chars "id1") (chars "a.txt") 11 ⟨[], []⟩).2).2.registry
        (chars "id1") = none :=
  ⟨((ingest_delete_consistency orcGood (chars "id1") (chars "a.txt") 11 ⟨[], []⟩
      (process_document orcGood (chars "id1") (chars "a.txt") 11 ⟨[], []⟩).2
      (.ok ()) ⟨chars "id1", rfl⟩).2.2 (by decide)).1,
   ((ingest_delete_consistency orcGood (chars "id1") (chars "a.txt") 11 ⟨[], []⟩
      (process_document orcGood (chars "id1") (chars "a.txt") 11 ⟨[], []⟩).2
      (.ok ()) ⟨chars "id1", rfl⟩).2.2 (by decide)).2.2⟩

/-- C10: for a document identifier present in the Metadata Registry, a
failing ChromaDB lookup or chunk deletion makes `delete_document` return
`False` with the store unchanged (the exception handler at lines 366-368),
so the registry record survives; and in every outcome, losing the registry
record implies the index holds no chunks for the identifier — the registry
entry is removed only after the Vector Index deletion succeeded
(document_processor.py lines 346-368). -/
theorem delete_document_failure_atomic (e d : List Char) (st : Store)
    (r : DocRecord) (hpres : rlookup st.registry d = some r) :
    delete_document (.error e) d st = (false, st)
    ∧ (∀ x b st2, delete_document x d st = (b, st2) →
        rlookup st2.registry d = none →
        ∀ ce ∈ st2.index, ¬ ce.doc_id = d) := by
  refine ⟨by simp [delete_document, hpres], ?_⟩
  intro x b st2 hdel hnone ce hce
  cases x with
  | error e2 =>
    simp only [delete_document, hpres, Prod.mk.injEq] at hdel
    rw [← hdel.2] at hnone
    rw [hpres] at hnone
    cases hnone
  | ok u =>
    simp only [delete_document, hpres, Prod.mk.injEq] at hdel
    rw [← hdel.2] at hce
    have := (List.mem_filter.1 hce).2
    intro hd
    simp [hd] at this

/-- Witness for C10: deleting an existing document with a failing ChromaDB
call returns `False` and leaves the one-record store untouched. -/
theorem delete_document_failure_atomic_w :
    delete_document (.error (chars "down")) (chars "d") storeOne = (false, storeOne) :=
  (delete_document_failure_atomic (chars "down") (chars "d") storeOne
    ⟨chars "d", chars "f.txt", 1, chars "processed", 1,
      chars "text-embedding-3-small"⟩ (by decide)).1

set_option maxHeartbeats 1600000 in
theorem windowEnd_lb (text : List Char) (cs : Nat) (start : Int) (h1 : 1 ≤ cs) :
    start + ((cs / 2 : Nat) : Int) + 1 ≤ windowEnd text cs start := by
  have hd : (cs / 2 : Nat) < cs := Nat.div_lt_self (by omega) (by omega)
  have hd2 : ((cs / 2 : Nat) : Int) < (cs : Int) := by exact_mod_cast hd
  simp only [windowEnd, List.foldl]
  set p1 := pyRfind text '.' start (start + cs) with hp1
  set p2 := pyRfind text '!' start (start + cs) with hp2
  set p3 := pyRfind text '?' start (start + cs) with hp3
  set p4 := pyRfind text ' ' start (start + cs) with hp4
  have b1 : -1 ≤ p1 := by rw [hp1]; exact neg_one_le_pyRfindP _ _ _ _
  have b2 : -1 ≤ p2 := by rw [hp2]; exact neg_one_le_pyRfindP _ _ _ _
  have b3 : -1 ≤ p3 := by rw [hp3]; exact neg_one_le_pyRfindP _ _ _ _
  have b4 : -1 ≤ p4 := by rw [hp4]; exact neg_one_le_pyRfindP _ _ _ _
  simp only [max_def]
  split_ifs <;> omega

theorem chunkLoop_terminates (text : List Char) (cs ov : Nat) (h1 : 1 ≤ cs)
    (hov : ov ≤ cs / 2) :
    ∀ (fuel : Nat) (start : Int) (acc : List (List Char)),
      (text.length : Int) ≤ start + fuel →
      (chunkLoop text cs ov fuel start acc).isSome := by
  intro fuel
  induction fuel with
  | zero =>
    intro s acc h
    have : ¬ s < (text.length : Int) := by omega
    simp [chunkLoop, this]
  | succ n ih =>
    intro s acc h
    simp only [chunkLoop]
    split
    · apply ih
      have hlb := windowEnd_lb text cs s h1
      have hcast : ((ov : Int)) ≤ ((cs / 2 : Nat) : Int) := by exact_mod_cast hov
      push_cast at h ⊢
      omega
    · simp

/-- C4 (amended): `_chunk_text` neither rejects nor clamps `overlap ≥
chunk_size` (see the counterexample `chunk_no_progress_cex`), but for every
text it terminates whenever `1 ≤ chunk_size` and `overlap ≤ chunk_size / 2`
— which covers the only call site, the defaults `(1000, 200)` — because each
iteration then advances `start` by at least one: fuel `text.length + 1`
always suffices to finish the loop. -/
theorem chunk_text_terminates (text : List Char) (chunk_size overlap : Nat)
    (h1 : 1 ≤ chunk_size) (hov : overlap ≤ chunk_size / 2) :
    (chunk_text (text.length + 1) text chunk_size overlap).isSome := by
  unfold chunk_text
  split
  · simp
  · apply chunkLoop_terminates text chunk_size overlap h1 hov
    push_cast
    omega

/-- Witness for C4 at a concrete configuration (`chunk_size = 2`,
`overlap = 1 ≤ 2 / 2`). -/
theorem chunk_text_terminates_w :
    (chunk_text (aaaFix.length + 1) aaaFix 2 1).isSome :=
  chunk_text_terminates aaaFix 2 1 (by decide) (by decide)

set_option maxRecDepth 10000 in
/-- C4 counterexample: the code does not reject or clamp `overlap ≥
chunk_size`, and such a configuration loops forever. With `chunk_size =
overlap = 2` on the three-character text `"aaa"` the very first window ends
at 2, the emitted candidate is discarded, and the next start is `2 - 2 = 0`
— the loop state repeats with `start < len(text)` still true, so the Python
while-loop never exits; in the fuel model the loop still has not finished
after 100 iterations. This refutes the claim that the chunker terminates
for every configuration and that `overlap ≥ chunkSize` is rejected or
clamped. -/
theorem chunk_no_progress_cex :
    windowEnd aaaFix 2 0 - 2 = 0
    ∧ chunkEmit aaaFix 0 (windowEnd aaaFix 2 0) [] = []
    ∧ (0 : Int) < (aaaFix.length : Int)
    ∧ chunkLoop aaaFix 2 2 100 0 [] = none := by
  decide

/-- The `"aaa"` configuration of `chunk_no_progress_cex` diverges at every
fuel: the loop never finishes, for any amount of fuel. -/
theorem chunkLoop_aaa_diverges :
    ∀ (fuel : Nat) (acc : List (List Char)), chunkLoop aaaFix 2 2 fuel 0 acc = none := by
  intro fuel
  induction fuel with
  | zero => intro acc; rfl
  | succ n ih =>
    intro acc
    have hstep : chunkLoop aaaFix 2 2 (n + 1) 0 acc = chunkLoop aaaFix 2 2 n 0 acc := rfl
    rw [hstep, ih]

set_option maxHeartbeats 3200000 in
/-- C3 (amended): for every window the loop actually reaches (`0 ≤ start`),
when the window fits strictly inside the text (`start + chunk_size <
len(text)`) the chosen end is exactly the spec rule `specEnd` — just after
the last sentence mark in the window when strictly past the midpoint, else
the last space when strictly past the midpoint, else the raw offset — and
the loop continues from `(chosen end) - overlap`; but when the window
reaches the end of the text (`len(text) ≤ start + chunk_size`) the code
skips the boundary search and cuts at the raw `start + chunk_size` offset
(document_processor.py lines 205-228). -/
theorem chunk_window_rule (text : List Char) (chunk_size overlap : Nat)
    (start : Int) (h0 : 0 ≤ start) :
    (start + chunk_size < (text.length : Int) →
      windowEnd text chunk_size start = specEnd text chunk_size start)
    ∧ ((text.length : Int) ≤ start + chunk_size →
      windowEnd text chunk_size start = start + chunk_size)
    ∧ (∀ (fuel : Nat) (acc : List (List Char)), start < (text.length : Int) →
        chunkLoop text chunk_size overlap (fuel + 1) start acc =
          chunkLoop text chunk_size overlap fuel
            (windowEnd text chunk_size start - overlap)
            (chunkEmit text start (windowEnd text chunk_size start) acc)) := by
  refine ⟨?_, ?_, ?_⟩
  · intro hlen
    have hmid : 0 ≤ start + ((chunk_size / 2 : Nat) : Int) := by positivity
    simp only [windowEnd, specEnd, pyRfind, List.foldl, pyRfindP_or, if_pos hlen]
    set p1 := pyRfindP (fun d => d == '.') text start (start + chunk_size) with hq1
    set p2 := pyRfindP (fun d => d == '!') text start (start + chunk_size) with hq2
    set p3 := pyRfindP (fun d => d == '?') text start (start + chunk_size) with hq3
    set p4 := pyRfindP (fun d => d == ' ') text start (start + chunk_size) with hq4
    have b1 : -1 ≤ p1 := by rw [hq1]; exact neg_one_le_pyRfindP _ _ _ _
    have b2 : -1 ≤ p2 := by rw [hq2]; exact neg_one_le_pyRfindP _ _ _ _
    have b3 : -1 ≤ p3 := by rw [hq3]; exact neg_one_le_pyRfindP _ _ _ _
    have b4 : -1 ≤ p4 := by rw [hq4]; exact neg_one_le_pyRfindP _ _ _ _
    simp only [max_def]
    split_ifs <;> omega
  · intro hlen
    have : ¬ start + (chunk_size : Int) < (text.length : Int) := by omega
    simp only [windowEnd, this, if_false]
  · intro fuel acc h
    simp only [chunkLoop]
    rw [if_pos h]

set_option maxRecDepth 10000 in
/-- Witness for C3 at the first window of `text120` with `chunk_size = 100`,
`overlap = 60`: the window fits inside the text and the rule gives the raw
end 100, from which the loop continues at `100 - 60 = 40`. -/
theorem chunk_window_rule_w :
    windowEnd text120 100 0 = specEnd text120 100 0
    ∧ chunkLoop text120 100 60 1 0 [] =
        chunkLoop text120 100 60 0 (windowEnd text120 100 0 - 60)
          (chunkEmit text120 0 (windowEnd text120 100 0) []) :=
  ⟨(chunk_window_rule text120 100 60 0 (by decide)).1 (by decide),
   (chunk_window_rule text120 100 60 0 (by decide)).2.2 0 [] (by decide)⟩

set_option maxRecDepth 10000 in
/-- C3 counterexample: the claim states the three-case rule for every
window, but the code applies it only when `end < len(text)`; on the final
window it always cuts at the raw offset. On the 120-character `text120`
(period at position 110) with `chunk_size = 100`, `overlap = 60`, the run
reaches the window at `start = 40` (first window ends raw at 100, next
start `100 - 60 = 40`); there the code takes the raw end `140`, while the
spec rule ends just after the period at `110 + 1 = 111`, since `110` lies
strictly past the midpoint `40 + 50 = 90`. -/
theorem chunk_window_rule_cex :
    (100 : Nat) < text120.length
    ∧ windowEnd text120 100 0 - 60 = 40
    ∧ (40 : Int) < (text120.length : Int)
    ∧ windowEnd text120 100 40 = 140
    ∧ specEnd text120 100 40 = 111 := by
  decide

theorem chunkLoop_emitted (text : List Char) (cs ov : Nat) :
    ∀ (fuel : Nat) (start : Int) (acc res : List (List Char)),
      (∀ c ∈ acc, 50 < c.length ∧ pyStrip c = c) →
      chunkLoop text cs ov fuel start acc = some res →
      ∀ c ∈ res, 50 < c.length ∧ pyStrip c = c := by
  intro fuel
  induction fuel with
  | zero =>
    intro s acc res hacc h
    simp only [chunkLoop] at h
    split at h
    · cases h
    · simp only [Option.some.injEq] at h
      subst h
      exact hacc
  | succ n ih =>
    intro s acc res hacc h
    simp only [chunkLoop] at h
    split at h
    · refine ih _ _ _ ?_ h
      intro c hc
      simp only [chunkEmit] at hc
      split at hc
      · rcases List.mem_append.1 hc with h1 | h2
        · exact hacc c h1
        · rw [List.mem_singleton.1 h2]
          rename_i hcond
          exact ⟨hcond.2, pyStrip_idem _⟩
      · exact hacc c hc
    · simp only [Option.some.injEq] at h
      subst h
      exact hacc

/-- C5 (amended): for every text longer than `chunk_size`, every emitted
chunk has length strictly greater than 50 and is already
whitespace-trimmed (so its length after trimming exceeds 50): candidates of
trimmed length at most 50 are discarded (document_processor.py lines
224-226). Because such candidates are dropped entirely, the emitted chunks
need not cover the original text (see `chunk_coverage_cex`). -/
theorem chunk_emitted_trimmed (fuel : Nat) (text : List Char)
    (chunk_size overlap : Nat) (res : List (List Char))
    (hlen : chunk_size < text.length)
    (hres : chunk_text fuel text chunk_size overlap = some res) :
    ∀ c ∈ res, 50 < c.length ∧ pyStrip c = c := by
  have hnot : ¬ text.length ≤ chunk_size := by omega
  rw [chunk_text, if_neg hnot] at hres
  exact chunkLoop_emitted text chunk_size overlap fuel 0 [] res (by simp) hres

set_option maxRecDepth 10000 in
/-- Witness for C5 at a 70-character text with `chunk_size = 60`,
`overlap = 10`: the run emits the single 60-character chunk, which is longer
than 50 and fixed by trimming. -/
theorem chunk_emitted_trimmed_w :
    50 < (List.replicate 60 'a').length
    ∧ pyStrip (List.replicate 60 'a') = List.replicate 60 'a' :=
  chunk_emitted_trimmed 71 (List.replicate 70 'a') 60 10
    [List.replicate 60 'a'] (by decide) (by decide)
    (List.replicate 60 'a') (List.mem_singleton_self _)

set_option maxRecDepth 10000 in
/-- C5 counterexample: with `chunk_size = 10 < 15 = len(text)` on fifteen
non-whitespace characters every candidate window is at most 10 characters,
so every candidate is discarded by the `> 50` filter and the run returns
zero chunks — the emitted chunks cover none of the text, refuting the
no-gaps coverage part of the claim. -/
theorem chunk_coverage_cex :
    (10 : Nat) < z15.length
    ∧ chunk_text 5 z15 10 2 = some []
    ∧ ¬ specCovered z15 [] := by
  refine ⟨by decide, by decide, ?_⟩
  intro h
  rcases h 'z' (by decide) with ⟨k, hk, _⟩
  exact absurd hk (by simp)

end Chatbot
